import Mathlib

/-!
Verification development for the go-pacemaker CIB client library.

The definitions below are a shallow embedding of the repository's decoding
and synchronization code:
  * the streaming XML decoders of the hand-written configuration decoder
    (decodeTagImpl / decodeRule / decodeNVPair / decodeAttributeSet),
  * the tolerant top-level decoders (loadCibObjects / decodeCibObjects),
  * the notification callbacks of src/cib.c (go_cib_notify_cb, both variants),
  * small pure helpers (CibVersion.String, SignOn, stringToBool / IsTrue).

Go's encoding/xml token stream is modelled as a list of tokens; Go maps are
modelled as association lists; fallible calls return Option/Except.  The
streaming decoders are written with an explicit fuel argument so that they
are structurally recursive; every caller passes `length of the input + 1`
fuel, which is enough because each loop iteration consumes at least one
token.
-/

/-- One XML attribute, as seen in Go's `xml.Attr` (local name and value). -/
structure XmlAttr where
  name : String
  value : String
deriving DecidableEq, Repr

/-- A start element: Go's `xml.StartElement` (local name plus attributes). -/
structure StartElem where
  name : String
  attrs : List XmlAttr
deriving DecidableEq, Repr

/-- One token of Go's `encoding/xml` token stream.  The decoders in the
source switch only on `xml.StartElement` and `xml.EndElement`; all other
token kinds (character data, comments, directives) fall through the switch,
so they are collapsed into `charData`. -/
inductive XmlToken where
  | startEl (se : StartElem)
  | endEl (name : String)
  | charData (s : String)
deriving DecidableEq, Repr

abbrev Tokens := List XmlToken

/-- Last value of the attribute named `n` in an attribute list.  The Go
decoders assign the struct field once per matching attribute while iterating
in order, so the last occurrence wins. -/
def lastAttr (n : String) : List XmlAttr → Option String
  | [] => none
  | a :: rest =>
    match lastAttr n rest with
    | some v => some v
    | none => if a.name = n then some a.value else none

/-- Embedding of the `RuleExpression` struct of the hand-written decoder
(src/unnamed/part_001): id, attribute, operation are plain strings (Go zero
value "" when absent), value and type are optional. -/
structure RuleExpression where
  id : String
  attribute_ : String
  operation : String
  value : Option String
  type_ : Option String
deriving DecidableEq, Repr

/-- Embedding of the `DateDuration` struct (src/unnamed/part_001), backing
both `duration` and `date_spec` children of a date expression. -/
structure DateDuration where
  id : String
  hours : Option String
  monthdays : Option String
  weekdays : Option String
  yearsdays : Option String
  months : Option String
  weeks : Option String
  years : Option String
  weekyears : Option String
  moon : Option String
deriving DecidableEq, Repr

/-- Embedding of the `DateExpression` struct (src/unnamed/part_001). -/
structure DateExpression where
  id : String
  operation : Option String
  start : Option String
  end_ : Option String
  duration : Option DateDuration
  dateSpec : Option DateDuration
deriving DecidableEq, Repr

mutual
/-- Embedding of the `Rule` struct (src/unnamed/part_001): optional id-ref,
id, score, score-attribute, boolean-op, role, and the heterogeneous ordered
`Expressions []interface\x7b\x7d` sequence, modelled by the tagged `RuleChild`. -/
inductive Rule where
  | mk (idRef id score scoreAttribute booleanOp role : Option String)
       (expressions : List RuleChild) : Rule

/-- One entry of a rule's `Expressions` sequence: the Go code appends
`RuleExpression`, `DateExpression` or nested `Rule` values. -/
inductive RuleChild where
  | expr (e : RuleExpression) : RuleChild
  | dateExpr (e : DateExpression) : RuleChild
  | nested (r : Rule) : RuleChild
end

/-- The rule being built before any attribute is decoded (all fields are Go
nil pointers / empty slices). -/
def emptyRule : Rule := .mk none none none none none none []

def Rule.idRef : Rule → Option String
  | .mk v _ _ _ _ _ _ => v

def Rule.id : Rule → Option String
  | .mk _ v _ _ _ _ _ => v

def Rule.score : Rule → Option String
  | .mk _ _ v _ _ _ _ => v

def Rule.scoreAttribute : Rule → Option String
  | .mk _ _ _ v _ _ _ => v

def Rule.booleanOp : Rule → Option String
  | .mk _ _ _ _ v _ _ => v

def Rule.role : Rule → Option String
  | .mk _ _ _ _ _ v _ => v

def Rule.expressions : Rule → List RuleChild
  | .mk _ _ _ _ _ _ es => es

/-- Append one child to a rule's `Expressions` sequence
(`a.Expressions = append(a.Expressions, ...)` in the source). -/
def Rule.push : Rule → RuleChild → Rule
  | .mk a b c d e f es, ch => .mk a b c d e f (es ++ [ch])

/-- The attribute callback of `decodeRule` (src/unnamed/part_001, lines
713-730): recognized attributes are stored, unknown ones are only logged;
the callback returns false, so every attribute is processed. -/
def ruleApplyAttr (a : Rule) (attr : XmlAttr) : Rule :=
  match a with
  | .mk idRef id score scoreAttribute booleanOp role es =>
    match attr.name with
    | "id" => .mk idRef (some attr.value) score scoreAttribute booleanOp role es
    | "id-ref" => .mk (some attr.value) id score scoreAttribute booleanOp role es
    | "score" => .mk idRef id (some attr.value) scoreAttribute booleanOp role es
    | "score-attribute" => .mk idRef id score (some attr.value) booleanOp role es
    | "boolean-op" => .mk idRef id score scoreAttribute (some attr.value) role es
    | "role" => .mk idRef id score scoreAttribute booleanOp (some attr.value) es
    | _ => .mk idRef id score scoreAttribute booleanOp role es

/-- Modelled from the spec: `decodeRuleExpression` is referenced by
`decodeRule` but its definition is not among the source files.  Per §4.1 the
`expression` child is an attribute/operation/value comparison, a leaf read
from the element's attributes in the same tolerant style as the other
decoders (unknown attribute names are skipped). -/
def decodeRuleExpression (se : StartElem) : RuleExpression :=
  se.attrs.foldl
    (fun a attr =>
      match attr.name with
      | "id" => { a with id := attr.value }
      | "attribute" => { a with attribute_ := attr.value }
      | "operation" => { a with operation := attr.value }
      | "value" => { a with value := some attr.value }
      | "type" => { a with type_ := some attr.value }
      | _ => a)
    ⟨"", "", "", none, none⟩

/-- Modelled from the spec: attribute reader for the `duration` / `date_spec`
children of a date expression (the DateDuration shape of §4.1); the decoder
itself is not among the source files. -/
def dateDurationOfAttrs (attrs : List XmlAttr) : DateDuration :=
  attrs.foldl
    (fun a attr =>
      match attr.name with
      | "id" => { a with id := attr.value }
      | "hours" => { a with hours := some attr.value }
      | "monthdays" => { a with monthdays := some attr.value }
      | "weekdays" => { a with weekdays := some attr.value }
      | "yearsdays" => { a with yearsdays := some attr.value }
      | "months" => { a with months := some attr.value }
      | "weeks" => { a with weeks := some attr.value }
      | "years" => { a with years := some attr.value }
      | "weekyears" => { a with weekyears := some attr.value }
      | "moon" => { a with moon := some attr.value }
      | _ => a)
    ⟨"", none, none, none, none, none, none, none, none, none⟩

/-- Modelled from the spec: scan of a `date_expression` element's subtree.
`decodeDateExpression` is referenced by `decodeRule` but its definition is
not among the source files; per §4.1 it reads the element's attributes and
picks up an optional `duration` or `date_spec` child, consuming tokens up to
the element's matching end tag (a `date_expression` cannot nest itself, but
the same-name depth counter of the repository's scan style is kept). -/
def decodeDateExpressionLoop (a : DateExpression) (depth : Nat) :
    Tokens → DateExpression × Tokens
  | [] => (a, [])
  | .startEl ce :: rest =>
    if ce.name = "date_expression" then
      decodeDateExpressionLoop a (depth + 1) rest
    else if ce.name = "duration" then
      decodeDateExpressionLoop { a with duration := some (dateDurationOfAttrs ce.attrs) } depth rest
    else if ce.name = "date_spec" then
      decodeDateExpressionLoop { a with dateSpec := some (dateDurationOfAttrs ce.attrs) } depth rest
    else
      decodeDateExpressionLoop a depth rest
  | .endEl n :: rest =>
    if n = "date_expression" then
      if depth = 1 then (a, rest)
      else decodeDateExpressionLoop a (depth - 1) rest
    else decodeDateExpressionLoop a depth rest
  | .charData _ :: rest => decodeDateExpressionLoop a depth rest

/-- Attribute pass of the modelled `decodeDateExpression`. -/
def dateExpressionOfAttrs (attrs : List XmlAttr) : DateExpression :=
  attrs.foldl
    (fun a attr =>
      match attr.name with
      | "id" => { a with id := attr.value }
      | "operation" => { a with operation := some attr.value }
      | "start" => { a with start := some attr.value }
      | "end" => { a with end_ := some attr.value }
      | _ => a)
    ⟨"", none, none, none, none, none⟩

def decodeDateExpression (se : StartElem) (ts : Tokens) : DateExpression × Tokens :=
  decodeDateExpressionLoop (dateExpressionOfAttrs se.attrs) 1 ts

/-- Embedding of the token loop of `decodeTagImpl` (src/unnamed/part_001,
lines 626-659) as instantiated by `decodeRule` (lines 711-751).

`seName` is the outer element's name (`se.Name.Local`).  Exactly as in the
source: a start tag whose name equals `seName` increments `depth` first, and
the element callback is then invoked on every start tag — for a nested
`rule` it recursively runs `decodeRule` (inlined here as the attribute fold
followed by this same loop), which itself consumes up to the nested end tag;
an end tag matching `seName` decrements `depth`, and the scan stops only
when `depth` reaches zero.  A nil token (exhausted stream) breaks the loop.

The explicit `fuel` makes the recursion structural; each iteration consumes
at least one token, so `fuel = length of the stream + 1` never runs out. -/
def decodeRuleLoopF : Nat → String → Rule → Nat → Tokens → Rule × Tokens
  | _, _, a, _, [] => (a, [])
  | 0, _, a, _, ts => (a, ts)
  | fuel + 1, seName, a, depth, .startEl ce :: rest =>
    let depth' := if ce.name = seName then depth + 1 else depth
    if ce.name = "expression" then
      decodeRuleLoopF fuel seName (a.push (.expr (decodeRuleExpression ce))) depth' rest
    else if ce.name = "date_expression" then
      let (n, rest') := decodeDateExpression ce rest
      decodeRuleLoopF fuel seName (a.push (.dateExpr n)) depth' rest'
    else if ce.name = "rule" then
      let (r, rest') := decodeRuleLoopF fuel ce.name (ce.attrs.foldl ruleApplyAttr emptyRule) 1 rest
      decodeRuleLoopF fuel seName (a.push (.nested r)) depth' rest'
    else
      decodeRuleLoopF fuel seName a depth' rest
  | fuel + 1, seName, a, depth, .endEl n :: rest =>
    if n = seName then
      if depth = 1 then (a, rest)
      else decodeRuleLoopF fuel seName a (depth - 1) rest
    else decodeRuleLoopF fuel seName a depth rest
  | fuel + 1, seName, a, depth, .charData _ :: rest =>
    decodeRuleLoopF fuel seName a depth rest

/-- Embedding of `decodeRule` (src/unnamed/part_001, lines 711-751): the
attribute pass (the `attrfn` always returns false, so every attribute is
read) followed by the `decodeTagImpl` token loop.  Returns the decoded rule
and the unconsumed remainder of the token stream. -/
def decodeRule (se : StartElem) (ts : Tokens) : Rule × Tokens :=
  decodeRuleLoopF (ts.length + 1) se.name (se.attrs.foldl ruleApplyAttr emptyRule) 1 ts

example :
    decodeRule ⟨"rule", [⟨"id", "o"⟩]⟩
      [.startEl ⟨"rule", [⟨"id", "i"⟩]⟩, .endEl "rule", .endEl "rule"]
    = (.mk none (some "o") none none none none
        [.nested (.mk none (some "i") none none none none [])], []) := rfl

/-- Embedding of the `NVPair` struct (src/unnamed/part_001). -/
structure NVPair where
  id : Option String
  idRef : Option String
  name : Option String
  value : Option String
deriving DecidableEq, Repr

def emptyNVPair : NVPair := ⟨none, none, none, none⟩

/-- One step of the attribute callback of `decodeNVPair`
(src/unnamed/part_001, lines 691-709). -/
def nvpairApplyAttr (a : NVPair) (attr : XmlAttr) : NVPair :=
  match attr.name with
  | "id" => { a with id := some attr.value }
  | "id-ref" => { a with idRef := some attr.value }
  | "name" => { a with name := some attr.value }
  | "value" => { a with value := some attr.value }
  | _ => a

/-- The token loop of `decodeTagImpl` as entered by `decodeNVPair` with a
nil element callback: end tags are handled by the loop itself (same-name
depth tracking, stop at zero) and character data falls through, but EVERY
start element leads to `elemfn(decoder, se, &ce, depth)` — a call through a
nil function value, i.e. a Go runtime panic, modelled as `none`. -/
def nvpairNoAttrLoop (seName : String) (depth : Nat) : Tokens → Option (NVPair × Tokens)
  | [] => some (emptyNVPair, [])
  | .startEl _ :: _ => none
  | .endEl n :: rest =>
    if n = seName then
      if depth = 1 then some (emptyNVPair, rest)
      else nvpairNoAttrLoop seName (depth - 1) rest
    else nvpairNoAttrLoop seName depth rest
  | .charData _ :: rest => nvpairNoAttrLoop seName depth rest

/-- Embedding of `decodeNVPair` (src/unnamed/part_001, lines 691-709).  Its
attribute callback returns true, so `decodeTagImpl` returns right after the
FIRST attribute, consuming no tokens (the callback's `attr` parameter is a
fresh copy per invocation, so the stored `&attr.Value` pointers are stable).
Only when the element has no attributes at all does the token loop run, with
a nil element callback: the loop survives end tags and character data but
panics on the first child start element (`none`). -/
def decodeNVPair (se : StartElem) (ts : Tokens) : Option (NVPair × Tokens) :=
  match se.attrs with
  | a0 :: _ => some (nvpairApplyAttr emptyNVPair a0, ts)
  | [] => nvpairNoAttrLoop se.name 1 ts

/-- Embedding of the `AttributeSet` struct (src/unnamed/part_001). -/
structure AttributeSet where
  id : Option String
  idRef : Option String
  score : Option String
  rules : List Rule
  values : List NVPair

def emptyAttributeSet : AttributeSet := ⟨none, none, none, [], []⟩

/-- The attribute pass of `decodeAttributeSet` (src/unnamed/part_001, lines
756-767) under the pre-Go-1.22 semantics this go.mod-less 2017 repository
builds with: the inline `for _, attr := range se.Attr` declares ONE loop
variable, and each recognized case stores `&attr.Value` — a pointer into
that single shared variable.  After the loop the variable holds the last
attribute, so every field that was assigned (id, id-ref, score occurred
among the attributes) later dereferences to the LAST attribute's value;
unknown attribute names are only logged. -/
def decodeAttributeSetAttrs (attrs : List XmlAttr) : AttributeSet :=
  let lastVal := attrs.getLast?.map (fun x => x.value)
  { id := if attrs.any (fun x => x.name = "id") then lastVal else none
    idRef := if attrs.any (fun x => x.name = "id-ref") then lastVal else none
    score := if attrs.any (fun x => x.name = "score") then lastVal else none
    rules := []
    values := [] }

/-- Embedding of the token loop of `decodeAttributeSet`
(src/unnamed/part_001, lines 768-799): a start tag with the set's own name
only increments the depth; otherwise, at depth 1, `nvpair` and `rule`
children are decoded and appended while anything else is skipped; the
matching end tag decrements the depth and the loop returns when it reaches
zero.  A `none` result is the runtime panic propagated from `decodeNVPair`
on an attribute-less nvpair child with element content.  Fuel as in
`decodeRuleLoopF`. -/
def decodeAttributeSetLoopF : Nat → String → AttributeSet → Nat → Tokens → Option (AttributeSet × Tokens)
  | _, _, a, _, [] => some (a, [])
  | 0, _, a, _, ts => some (a, ts)
  | fuel + 1, seName, a, depth, .startEl ce :: rest =>
    if ce.name = seName then
      decodeAttributeSetLoopF fuel seName a (depth + 1) rest
    else if depth = 1 then
      if ce.name = "nvpair" then
        match decodeNVPair ce rest with
        | none => none
        | some p =>
          decodeAttributeSetLoopF fuel seName { a with values := a.values ++ [p.1] } depth p.2
      else if ce.name = "rule" then
        let p := decodeRuleLoopF fuel ce.name (ce.attrs.foldl ruleApplyAttr emptyRule) 1 rest
        decodeAttributeSetLoopF fuel seName { a with rules := a.rules ++ [p.1] } depth p.2
      else
        decodeAttributeSetLoopF fuel seName a depth rest
    else
      decodeAttributeSetLoopF fuel seName a depth rest
  | fuel + 1, seName, a, depth, .endEl n :: rest =>
    if n = seName then
      if depth = 1 then some (a, rest)
      else decodeAttributeSetLoopF fuel seName a (depth - 1) rest
    else decodeAttributeSetLoopF fuel seName a depth rest
  | fuel + 1, seName, a, depth, .charData _ :: rest =>
    decodeAttributeSetLoopF fuel seName a depth rest

/-- Embedding of `decodeAttributeSet` (src/unnamed/part_001, lines 753-800):
the aliasing attribute pass over `se.Attr` followed by the depth-tracking
token loop.  The nested `decodeRule` call is unfolded into its attribute
fold plus the shared rule loop, exactly as in `decodeRule` above; `none`
models the Go runtime panic described at `decodeNVPair`. -/
def decodeAttributeSet (se : StartElem) (ts : Tokens) : Option (AttributeSet × Tokens) :=
  decodeAttributeSetLoopF (ts.length + 1) se.name (decodeAttributeSetAttrs se.attrs) 1 ts

example :
    decodeAttributeSet ⟨"instance_attributes", [⟨"id", "s1"⟩]⟩
      [.startEl ⟨"nvpair", [⟨"id", "n1"⟩, ⟨"name", "k"⟩, ⟨"value", "v"⟩]⟩, .endEl "nvpair",
       .endEl "instance_attributes", .charData "x"]
    = some ({ emptyAttributeSet with
          id := some "s1"
          values := [{ emptyNVPair with id := some "n1" }] }, [.charData "x"]) := rfl

section NotifySync

variable {Doc Diff : Type}

/-- Embedding of `go_cib_notify_cb` (src/cib.c, first variant, lines 29-43).

`applyPatchset` models the external primitive `xml_apply_patchset`, which
patches the cached tree in place: `some d2` is a `pcmk_ok` return with the
patched document, `none` is a rejection that leaves the base document
untouched.  `queryResult` models the document produced by the synchronous
`cmds->query` call.  The result is the pair (new value of the cached
`s_current_cib`, document handed to `diffNotifyCallback`).

Exactly as in the source: when a document is cached, the handler stores the
return code of `xml_apply_patchset` in `rc` but never inspects it, so it
publishes whatever the cached document is after the call — it does not
re-query on rejection. -/
def goCibNotifyCb (applyPatchset : Doc → Diff → Option Doc) (queryResult : Doc)
    (cached : Option Doc) (diff : Diff) : Option Doc × Doc :=
  match cached with
  | none => (some queryResult, queryResult)
  | some d =>
    match applyPatchset d diff with
    | some d2 => (some d2, d2)
    | none => (some d, d)

/-- Embedding of `go_cib_notify_cb` (src/cib.c, second variant, lines
108-121): the handler ignores the diff, always issues a full synchronous
re-query, publishes its result to `diffNotifyCallback` and frees it,
keeping no cache. -/
def goCibNotifyCbV2 (queryResult : Doc) (_diff : Diff) : Doc :=
  queryResult

/-- Modelled from the spec (§4.3, OnNotification): on a rejected diff the
synchronizer keeps the old document, forces a full synchronous re-query as
recovery, and publishes the re-queried document; the cache is replaced by
the patched document only when patch application succeeds.  Stated only for
comparison with the source's `goCibNotifyCb`. -/
def notifyCbSpec (applyPatchset : Doc → Diff → Option Doc) (queryResult : Doc)
    (cached : Option Doc) (diff : Diff) : Option Doc × Doc :=
  match cached with
  | none => (some queryResult, queryResult)
  | some d =>
    match applyPatchset d diff with
    | some d2 => (some d2, d2)
    | none => (some queryResult, queryResult)

/-- Run the first-variant notification handler over a sequence of
notifications.  Each notification is a pair `(q, d)`: the diff `d` carried
by the notification and the cluster document `q` that a synchronous query
would return at that moment (used by the handler only when nothing is
cached yet).  The accumulator is the cached `s_current_cib`. -/
def runNotifyV1 (applyPatchset : Doc → Diff → Option Doc) :
    Option Doc → List (Doc × Diff) → Option Doc
  | cached, [] => cached
  | cached, (q, d) :: rest =>
    runNotifyV1 applyPatchset (goCibNotifyCb applyPatchset q cached d).1 rest

/-- A notification sequence is coherent for base document `s` when each
diff, applied to the previous document, succeeds and yields exactly the
cluster document carried by that notification ("delivered in order with no
diff rejected"). -/
def DiffChain (applyPatchset : Doc → Diff → Option Doc) : Doc → List (Doc × Diff) → Prop
  | _, [] => True
  | s, (q, d) :: rest => applyPatchset s d = some q ∧ DiffChain applyPatchset q rest

/-- The cluster document after the whole notification sequence (the last
carried document, or the base if the sequence is empty). -/
def lastState : Doc → List (Doc × Diff) → Doc
  | s, [] => s
  | _, (q, _) :: rest => lastState q rest

end NotifySync

/-- Modelled: one node_state entry as decoded by `DecodeElement(&cib.Status,
&se)`.  Go's encoding/xml fills the `NodeState` struct from the node_state
element's attributes; only the id and uname fields are kept here, the
remaining NodeState fields are not referenced by any claim. -/
structure NodeStateD where
  id : String
  uname : String
deriving DecidableEq, Repr

/-- Modelled: `decoder.DecodeElement(&cib.Status, &se)` after the `status`
start tag has been consumed.  Go's unmarshaler collects the direct
`node_state` children of the status element and consumes input exactly up to
the matching end tag; `depth` is the current element nesting inside status
(1 = directly below it). -/
def decodeStatusTokens (acc : List NodeStateD) (depth : Nat) :
    Tokens → List NodeStateD × Tokens
  | [] => (acc, [])
  | .startEl ce :: rest =>
    let acc' :=
      if depth = 1 ∧ ce.name = "node_state" then
        acc ++ [⟨(lastAttr "id" ce.attrs).getD "", (lastAttr "uname" ce.attrs).getD ""⟩]
      else acc
    decodeStatusTokens acc' (depth + 1) rest
  | .endEl _ :: rest =>
    if depth = 1 then (acc, rest) else decodeStatusTokens acc (depth - 1) rest
  | .charData _ :: rest => decodeStatusTokens acc depth rest

/-- The `Configuration` type of the first variant of src/pacemaker.go (line
81): `type Configuration struct \x7b\x7d` — it has no fields at all, so a decoded
configuration of this variant can hold no data. -/
structure ConfigurationV0 where
deriving DecidableEq, Repr

/-- The decode state of the first variant of src/pacemaker.go: the `cib`
element's attributes (a Go map, modelled as the association list of the
attributes in order; later entries shadow earlier ones on lookup), the
(empty) configuration, and the decoded status. -/
structure CibV0 where
  attributes : List (String × String)
  configuration : ConfigurationV0
  status : List NodeStateD
deriving DecidableEq, Repr

/-- The Node entities held by a `ConfigurationV0` value: the struct has no
fields, so there are none.  (Introduced to state the nodes-related claim
against this decode variant.) -/
def configurationV0Nodes (_c : ConfigurationV0) : List (String × String) := []

/-- Embedding of the token loop of `loadCibObjects` (src/pacemaker.go, first
variant, lines 291-311): `cib` start tags (re)build the attribute map,
`status` start tags decode the status subtree via `DecodeElement`; every
other token — including the whole `configuration` section — is skipped.
Token errors are discarded (`t, _ := decoder.Token()`) and the function
always returns nil, so no error value appears here.  Fuel as before. -/
def loadCibObjectsF : Nat → CibV0 → Tokens → CibV0
  | 0, c, _ => c
  | _ + 1, c, [] => c
  | fuel + 1, c, .startEl se :: rest =>
    if se.name = "cib" then
      loadCibObjectsF fuel { c with attributes := se.attrs.map (fun a => (a.name, a.value)) } rest
    else if se.name = "status" then
      let (ns, rest') := decodeStatusTokens [] 1 rest
      loadCibObjectsF fuel { c with status := ns } rest'
    else loadCibObjectsF fuel c rest
  | fuel + 1, c, _ :: rest => loadCibObjectsF fuel c rest

/-- Embedding of `loadCibObjects` over a full token stream, starting from
the zero-valued `Cib`. -/
def loadCibObjects (ts : Tokens) : CibV0 :=
  loadCibObjectsF (ts.length + 1) ⟨[], ⟨⟩, []⟩ ts

/-- A tokenizer result stream for the part_003 decoder: the tokens that
`decoder.Token()` yields, followed by either clean end of input
(`terminal = none`, Go's `(nil, io.EOF)`) or a tokenizer failure on
structurally malformed XML (`terminal = some msg`, Go's
`(nil, *SyntaxError)`). -/
structure TokenStream where
  toks : Tokens
  terminal : Option String
deriving DecidableEq, Repr

/-- Model of `decoder.Token()`: Go's tokenizer never returns a non-nil
token together with a non-nil error — any error comes with a nil token. -/
def tokenStep : TokenStream → Option XmlToken × Option String × TokenStream
  | ⟨[], term⟩ => (none, term, ⟨[], term⟩)
  | ⟨t :: r, term⟩ => (some t, none, ⟨r, term⟩)

/-- The decode state of the part_003 variant: the `cib` element's attribute
map and the decoded status (its `Config *Element` field is never assigned by
`decodeCibObjects`, and the `configuration` branch of the switch is empty). -/
structure Cib3 where
  attr : List (String × String)
  status : List NodeStateD
deriving DecidableEq, Repr

/-- Embedding of `decodeCibObjects` (src/unnamed/part_003, lines 440-463).

The loop mirrors the source order of the checks: `t, err :=
decoder.Token(); if t == nil \x7b return nil \x7d else if err != nil \x7b return err
\x7d` — since the tokenizer only reports an error together with a nil token,
the first branch also catches every tokenizer failure and returns nil, and
the `return err` branch is unreachable.  The result pairs the returned
error value with the final decode state. -/
def decodeCibObjects3F : Nat → Cib3 → TokenStream → Option String × Cib3
  | 0, c, _ => (none, c)
  | fuel + 1, c, s =>
    match tokenStep s with
    | (none, _err, _) => (none, c)
    | (some t, err, s') =>
      if err.isSome then (err, c)
      else
        match t with
        | .startEl se =>
          if se.name = "cib" then
            decodeCibObjects3F fuel { c with attr := se.attrs.map (fun a => (a.name, a.value)) } s'
          else if se.name = "status" then
            let (ns, rest') := decodeStatusTokens [] 1 s'.toks
            decodeCibObjects3F fuel { c with status := ns } ⟨rest', s'.terminal⟩
          else decodeCibObjects3F fuel c s'
        | _ => decodeCibObjects3F fuel c s'

/-- Embedding of `decodeCibObjects` (part_003) over a whole stream. -/
def decodeCibObjects3 (s : TokenStream) : Option String × Cib3 :=
  decodeCibObjects3F (s.toks.length + 1) ⟨[], []⟩ s

/-- A materialized XML element tree (name, attributes, child elements);
character data is irrelevant to the unmarshaled fields below and is
omitted. -/
inductive XmlTree where
  | el (name : String) (attrs : List XmlAttr) (children : List XmlTree)

def XmlTree.name : XmlTree → String
  | .el n _ _ => n

def XmlTree.attrs : XmlTree → List XmlAttr
  | .el _ a _ => a

def XmlTree.children : XmlTree → List XmlTree
  | .el _ _ c => c

/-- Child elements with the given name, in document order. -/
def XmlTree.childrenNamed (t : XmlTree) (n : String) : List XmlTree :=
  t.children.filter (fun c => c.name = n)

/-- Embedding of the `CibNode` struct (src/pacemaker.go, second variant,
lines 656-665): id (idMixin), description (descMixin), score (scoreMixin),
uname and the validated type attribute.  The nested `instance_attributes` /
`utilization` collections are not referenced by any claim and are elided. -/
structure CibNode where
  id : String
  description : Option String
  score : Option String
  uname : String
  type_ : Option String
deriving DecidableEq, Repr

/-- Go encoding/xml unmarshaling of one `node` element into `CibNode`:
each field tagged `...,attr` receives the matching attribute's value
(plain string fields default to Go's "" when the attribute is absent,
pointer fields to nil). -/
def decodeCibNode (t : XmlTree) : CibNode :=
  { id := (lastAttr "id" t.attrs).getD ""
    description := lastAttr "description" t.attrs
    score := lastAttr "score" t.attrs
    uname := (lastAttr "uname" t.attrs).getD ""
    type_ := lastAttr "type" t.attrs }

/-- Embedding of the `Configuration` struct (src/pacemaker.go, second
variant, lines 747-765) restricted to the `Nodes []CibNode` field with tag
`nodes>node`; the sibling collections (resources, constraints, ...) are not
referenced by any claim and are elided. -/
structure ConfigurationD where
  nodes : List CibNode
deriving DecidableEq, Repr

/-- Go unmarshaling of a `configuration` element's `nodes>node` field path:
all `node` children of all `nodes` children, in document order. -/
def decodeConfigurationD (conf : XmlTree) : ConfigurationD :=
  { nodes := ((conf.childrenNamed "nodes").flatMap (fun ns => ns.childrenNamed "node")).map decodeCibNode }

/-- Embedding of the `Cib` struct of the second variant of src/pacemaker.go
(lines 389-409) as filled by `xml.Unmarshal`: the optional top-level
attributes and the typed configuration subtree (the status subtree is not
referenced by the claims that use this variant and is elided). -/
structure CibU where
  validateWith : Option String
  adminEpoch : Option String
  epoch : Option String
  numUpdates : Option String
  crmFeatureSet : Option String
  remoteTLSPort : Option String
  remoteClearPort : Option String
  haveQuorum : Option String
  dcUuid : Option String
  cibLastWritten : Option String
  noQuorumPanic : Option String
  updateOrigin : Option String
  updateClient : Option String
  updateUser : Option String
  executionDate : Option String
  configuration : ConfigurationD
deriving DecidableEq, Repr

/-- Embedding of `decodeCibObjects` (src/pacemaker.go, second variant, lines
1051-1053), i.e. `xml.Unmarshal(xmldata, &cib)`: the root element must be
`cib` (its XMLName tag), otherwise unmarshaling reports an error; on match
the attribute fields are filled from the root's attributes and every
`configuration` child (struct field tag `configuration`) is unmarshaled
into the configuration value, appending to its slices. -/
def decodeCibObjectsU (root : XmlTree) : Except String CibU :=
  if root.name = "cib" then
    .ok
      { validateWith := lastAttr "validate-with" root.attrs
        adminEpoch := lastAttr "admin_epoch" root.attrs
        epoch := lastAttr "epoch" root.attrs
        numUpdates := lastAttr "num_updates" root.attrs
        crmFeatureSet := lastAttr "crm_feature_set" root.attrs
        remoteTLSPort := lastAttr "remote-tls-port" root.attrs
        remoteClearPort := lastAttr "remote-clear-port" root.attrs
        haveQuorum := lastAttr "have-quorum" root.attrs
        dcUuid := lastAttr "dc-uuid" root.attrs
        cibLastWritten := lastAttr "cib-last-written" root.attrs
        noQuorumPanic := lastAttr "no-quorum-panic" root.attrs
        updateOrigin := lastAttr "update-origin" root.attrs
        updateClient := lastAttr "update-client" root.attrs
        updateUser := lastAttr "update-user" root.attrs
        executionDate := lastAttr "execution-date" root.attrs
        configuration :=
          ⟨(root.childrenNamed "configuration").flatMap
            (fun conf => (decodeConfigurationD conf).nodes)⟩ }
  else
    .error ("expected element type <cib> but have <" ++ root.name ++ ">")

/-- Embedding of the `CibVersion` struct (src/pacemaker.go, lines 125-129 /
818-822): the admin epoch, epoch and number-of-updates triple.  Go's int32
is modelled as Int (no arithmetic is performed on these values). -/
structure CibVersion where
  adminEpoch : Int
  epoch : Int
  numUpdates : Int
deriving DecidableEq, Repr

/-- Embedding of `CibVersion.String` (src/pacemaker.go, lines 131-133):
`fmt.Sprintf("%d:%d:%d", ver.AdminEpoch, ver.Epoch, ver.NumUpdates)` —
the three components rendered in decimal (Go's %d) joined by colons. -/
def CibVersion.toGoString (ver : CibVersion) : String :=
  toString ver.adminEpoch ++ ":" ++ toString ver.epoch ++ ":" ++ toString ver.numUpdates

/-- Modelled from the spec: `cib_version_details` is provided by the
external pacemaker library (not in src).  Per §6/§8 it reads the version
triple from the queried cib element's admin_epoch, epoch and num_updates
attributes as decimal integers (0 when absent or unparsable). -/
def decDigitsToNat (acc : Nat) : List Char → Option Nat
  | [] => some acc
  | c :: rest =>
    if c.isDigit then decDigitsToNat (acc * 10 + (c.toNat - 48)) rest else none

/-- Decimal integer parsing (an optional leading minus sign followed by
decimal digits), backing the modelled `cib_version_details`. -/
def parseIntModel (s : String) : Option Int :=
  match s.data with
  | [] => none
  | '-' :: rest => (decDigitsToNat 0 rest).map (fun n => -(n : Int))
  | l => (decDigitsToNat 0 l).map Int.ofNat

def cibVersionDetails (attrs : List XmlAttr) : CibVersion :=
  { adminEpoch := ((lastAttr "admin_epoch" attrs).bind parseIntModel).getD 0
    epoch := ((lastAttr "epoch" attrs).bind parseIntModel).getD 0
    numUpdates := ((lastAttr "num_updates" attrs).bind parseIntModel).getD 0 }

/-- The connection type passed to SignOn (src/pacemaker.go, lines 62-67):
`Query = cib_query`, `Command = cib_command`. -/
inductive CibConnection where
  | query
  | command
deriving DecidableEq, Repr

/-- The connection state of the underlying `cib_t` handle (the pacemaker
library's `enum cib_state` as used by SignOn's check). -/
inductive CibConnState where
  | connectedCommand
  | connectedQuery
  | disconnected
deriving DecidableEq, Repr

/-- Embedding of `formatErrorRc`'s result (src/pacemaker.go, lines 42-54):
a `CibError` built from a pacemaker return code.  The message text comes
from the external `pcmk_errorname` / `pcmk_strerror`; the return code it
was built from is what matters here. -/
structure CibError where
  rc : Int
deriving DecidableEq, Repr

def pcmkOk : Int := 0

/-- Embedding of `Cib.SignOn` (src/pacemaker.go, lines 141-151): when the
handle's state is already `cib_connected_query` or `cib_connected_command`
the method returns nil immediately; otherwise it calls the external
`go_cib_signon` (modelled by the oracle `signonC`, returning the pacemaker
return code and the handle state it leaves behind) and maps a non-ok code
through `formatErrorRc`.  The result is (state of the handle afterwards,
returned error). -/
def signOn (signonC : CibConnection → Int × CibConnState)
    (st : CibConnState) (conn : CibConnection) : CibConnState × Option CibError :=
  if st = .connectedQuery ∨ st = .connectedCommand then
    (st, none)
  else
    let (rc, st') := signonC conn
    if rc ≠ pcmkOk then (st', some ⟨rc⟩) else (st', none)

/-- Model of Go's `strings.ToLower` on the character lists of the inputs
the claims are about (Char.toLower lowercases exactly the ASCII range). -/
def goToLower (s : String) : String :=
  ⟨s.data.map Char.toLower⟩

/-- Embedding of `IsTrue` (src/unnamed/part_003, lines 434-437), identical
to `stringToBool` (src/pacemaker.go, lines 1043-1046): lowercase the
argument and compare against the five accepted spellings. -/
def IsTrue (bstr : String) : Bool :=
  let sl := goToLower bstr
  sl == "true" || sl == "on" || sl == "yes" || sl == "y" || sl == "1"

example : IsTrue "TRUE" = true := by decide
example : IsTrue "off" = false := by decide

/-! ### Sample document

The fixed sample document of the repository's tests (testdata/simple.xml as
pinned by ExampleQueryXPath / ExampleDecode / ExampleVersion): a cib with
validate-with "pacemaker-1.2", version triple 1:0:0, one node `xxx` with
uname `c001n01` and type `normal`, and an empty status section. -/

def sampleCibAttrs : List XmlAttr :=
  [⟨"validate-with", "pacemaker-1.2"⟩, ⟨"admin_epoch", "1"⟩,
   ⟨"epoch", "0"⟩, ⟨"num_updates", "0"⟩]

def sampleNodeAttrs : List XmlAttr :=
  [⟨"id", "xxx"⟩, ⟨"uname", "c001n01"⟩, ⟨"type", "normal"⟩]

def sampleTree : XmlTree :=
  .el "cib" sampleCibAttrs
    [.el "configuration" []
      [.el "nodes" [] [.el "node" sampleNodeAttrs []]],
     .el "status" [] []]

def sampleTokens : Tokens :=
  [.startEl ⟨"cib", sampleCibAttrs⟩,
   .startEl ⟨"configuration", []⟩,
   .startEl ⟨"nodes", []⟩,
   .startEl ⟨"node", sampleNodeAttrs⟩, .endEl "node",
   .endEl "nodes", .endEl "configuration",
   .startEl ⟨"status", []⟩, .endEl "status",
   .endEl "cib"]

/-! ### Claim C1 -/

/-- The failing input for the rule decoder: an outer `rule` element with one
nested `rule` child, followed in the enclosing container by a sibling `rule`
element.  `c1OuterStart` is the outer rule's start element (already consumed
by the caller); `c1Tokens` is the token stream after it. -/
def c1OuterStart : StartElem := ⟨"rule", [⟨"id", "outer"⟩]⟩

def c1Tokens : Tokens :=
  [.startEl ⟨"rule", [⟨"id", "inner"⟩]⟩, .endEl "rule",
   .endEl "rule",
   .startEl ⟨"rule", [⟨"id", "sibling"⟩]⟩, .endEl "rule"]

/-- C1: the claimed behavior — `decodeRule` consumes tokens exactly up to
the outer rule's matching end tag and returns only the descendant children —
fails on the code.  On `c1Tokens`, the nested `rule` start tag increments
the depth counter, but the recursive `decodeRule` call made by the element
callback itself consumes the nested end tag; the outer end tag therefore
only brings the depth back to 1 instead of 0, so the scan runs on past the
outer `</rule>`, decodes the sibling rule as if it were a nested child
(appending it to the outer rule's Expressions) and consumes the whole
remaining stream: the result is the outer rule with expressions
[inner, sibling] and an empty remainder, where the claim requires
expressions [inner] and the sibling's two tokens left unconsumed. -/
theorem c1_decodeRule_scans_past_end_tag :
    decodeRule c1OuterStart c1Tokens
      = (.mk none (some "outer") none none none none
          [.nested (.mk none (some "inner") none none none none []),
           .nested (.mk none (some "sibling") none none none none [])],
         []) := rfl

/-! ### Claim C2 -/

/-- C2: evaluation of `go_cib_notify_cb` (first variant) at a rejected diff.
With cached document 1, a cluster whose full query returns 2, and a
patch-apply primitive that rejects the diff, the handler keeps and publishes
the stale document 1 — the return code of `xml_apply_patchset` is stored in
`rc` but never inspected, so no recovery re-query happens — whereas the
specified behavior (`notifyCbSpec`, §4.3) re-queries and publishes 2. -/
theorem c2_notify_cb_ignores_patch_rejection :
    goCibNotifyCb (fun _ _ => (none : Option Nat)) 2 (some 1) (0 : Nat) = (some 1, 1) ∧
    notifyCbSpec (fun _ _ => (none : Option Nat)) 2 (some 1) (0 : Nat) = (some 2, 2) :=
  ⟨rfl, rfl⟩

/-! ### Claim C6 -/

/-- C6: when no document is cached yet (`s_current_cib == NULL`), the
notification handler issues a full synchronous query through the session and
publishes its result, so the callback always receives a full document and no
patch is applied to an absent base. -/
theorem c6_notify_cb_requeries_on_empty_cache {Doc Diff : Type}
    (applyPatchset : Doc → Diff → Option Doc) (queryResult : Doc) (diff : Diff) :
    goCibNotifyCb applyPatchset queryResult none diff = (some queryResult, queryResult) :=
  rfl

/-! ### Claim C3 -/

/-- C3: starting from a cached base document, processing a coherent sequence
of notifications (each diff accepted, in order) through the incremental
first-variant handler leaves exactly the document that the re-querying
second-variant handler would obtain from a single full query after all the
updates. -/
theorem c3_incremental_patching_matches_requery {Doc Diff : Type}
    (applyPatchset : Doc → Diff → Option Doc) (s0 : Doc)
    (steps : List (Doc × Diff)) (d : Diff)
    (h : DiffChain applyPatchset s0 steps) :
    runNotifyV1 applyPatchset (some s0) steps
      = some (goCibNotifyCbV2 (lastState s0 steps) d) := by
  induction steps generalizing s0 with
  | nil => rfl
  | cons p rest ih =>
    obtain ⟨q, dd⟩ := p
    obtain ⟨h1, h2⟩ := h
    have hstep : (goCibNotifyCb applyPatchset q (some s0) dd).1 = some q := by
      simp [goCibNotifyCb, h1]
    simp only [runNotifyV1, lastState, hstep]
    exact ih q h2

/-- Witness for C3 at a concrete instance: documents and diffs are numbers,
patch application adds the diff, base 0, two accepted diffs. -/
theorem c3_incremental_patching_matches_requery_witness :
    DiffChain (fun (a b : Nat) => some (a + b)) 0 [(1, 1), (3, 2)] ∧
    runNotifyV1 (fun (a b : Nat) => some (a + b)) (some 0) [(1, 1), (3, 2)]
      = some (goCibNotifyCbV2 (lastState 0 [(1, 1), (3, 2)]) (0 : Nat)) :=
  ⟨⟨rfl, rfl, trivial⟩,
   c3_incremental_patching_matches_requery (fun a b => some (a + b)) 0
     [(1, 1), (3, 2)] 0 ⟨rfl, rfl, trivial⟩⟩

/-! ### Claim C4 -/

/-- A structurally malformed input: the tokenizer yields the cib start tag
and then fails (Go: `decoder.Token()` returns `(nil, *SyntaxError)`). -/
def c4MalformedStream : TokenStream :=
  ⟨[.startEl ⟨"cib", [⟨"validate-with", "pacemaker-1.2"⟩]⟩],
   some "XML syntax error: unexpected EOF"⟩

/-- C4: the decode operation does NOT return an error on structurally
malformed input.  `decodeCibObjects` (part_003) checks `t == nil` before
`err != nil`, and Go's tokenizer reports every failure with a nil token, so
the tokenizer error is swallowed and the decode returns nil exactly as for
a clean end of input (and `loadCibObjects` discards the error outright) —
the claimed "error iff malformed" equivalence fails in the "if" direction. -/
theorem c4_decode_swallows_tokenizer_error :
    c4MalformedStream.terminal = some "XML syntax error: unexpected EOF" ∧
    decodeCibObjects3 c4MalformedStream
      = (none, ⟨[("validate-with", "pacemaker-1.2")], []⟩) :=
  ⟨rfl, rfl⟩

/-! ### Claim C8 -/

/-- C8 (amended, positive part): the typed decode (`decodeCibObjects` of the
second src/pacemaker.go variant, i.e. `xml.Unmarshal` into the typed `Cib`)
run on the sample document yields a Node entity in the decoded Configuration
with Uname "c001n01" and Type "normal" — the configuration subtree is
decoded, not dropped. -/
theorem c8_decodeCibObjects_decodes_node :
    decodeCibObjectsU sampleTree
      = .ok
          { validateWith := some "pacemaker-1.2"
            adminEpoch := some "1"
            epoch := some "0"
            numUpdates := some "0"
            crmFeatureSet := none
            remoteTLSPort := none
            remoteClearPort := none
            haveQuorum := none
            dcUuid := none
            cibLastWritten := none
            noQuorumPanic := none
            updateOrigin := none
            updateClient := none
            updateUser := none
            executionDate := none
            configuration :=
              ⟨[{ id := "xxx"
                  description := none
                  score := none
                  uname := "c001n01"
                  type_ := some "normal" }]⟩ } := rfl

/-- C8 (counterexample): under the `loadCibObjects` variant (first
src/pacemaker.go variant, also cited by the claim) the same sample document
decodes to the cib attribute map and the status only; the `configuration`
subtree is silently dropped — that variant's `Configuration` struct has no
fields — so the decoded Configuration contains no Node with uname
"c001n01", contradicting the claim as stated. -/
theorem c8_loadCibObjects_drops_configuration :
    loadCibObjects sampleTokens
      = { attributes :=
            [("validate-with", "pacemaker-1.2"), ("admin_epoch", "1"),
             ("epoch", "0"), ("num_updates", "0")]
          configuration := ⟨⟩
          status := [] } ∧
    configurationV0Nodes (loadCibObjects sampleTokens).configuration = [] :=
  ⟨rfl, rfl⟩

/-! ### Claim C7 -/

/-- C7: a document whose top-level attributes carry admin_epoch 1, epoch 0,
num_updates 0 reports the version string "1:0:0"; `CibVersion.String`
renders the triple as AdminEpoch, Epoch, NumUpdates in decimal joined by
colons in that order. -/
theorem c7_version_string_renders_triple :
    CibVersion.toGoString (cibVersionDetails sampleCibAttrs) = "1:0:0" ∧
    CibVersion.toGoString ⟨1, 0, 0⟩ = "1:0:0" ∧
    CibVersion.toGoString ⟨2, 10, 345⟩ = "2:10:345" ∧
    ∀ v : CibVersion,
      CibVersion.toGoString v
        = toString v.adminEpoch ++ ":" ++ toString v.epoch ++ ":"
            ++ toString v.numUpdates :=
  ⟨by decide, by decide, by decide, fun _ => rfl⟩

/-! ### Claim C9 -/

/-- C9: on a handle whose connection state is already
`cib_connected_query` or `cib_connected_command`, SignOn returns nil and
leaves the state unchanged without invoking the external signon (the result
does not depend on the `signonC` oracle), so a second SignOn is a no-op:
calling it twice equals calling it once. -/
theorem c9_signon_idempotent_when_connected
    (signonC : CibConnection → Int × CibConnState)
    (st : CibConnState) (conn : CibConnection)
    (h : st = .connectedQuery ∨ st = .connectedCommand) :
    signOn signonC st conn = (st, none) ∧
    signOn signonC (signOn signonC st conn).1 conn = signOn signonC st conn := by
  have h1 : signOn signonC st conn = (st, none) := by
    unfold signOn
    rw [if_pos h]
  refine ⟨h1, ?_⟩
  rw [h1]
  exact h1

/-- Witness for C9: a connected-for-query handle, with an oracle that would
fail the signon (return code 1) — showing it is never consulted. -/
theorem c9_signon_idempotent_when_connected_witness :
    ((CibConnState.connectedQuery = CibConnState.connectedQuery
        ∨ CibConnState.connectedQuery = CibConnState.connectedCommand)) ∧
    (signOn (fun _ => (1, .disconnected)) .connectedQuery .query
        = (.connectedQuery, none) ∧
      signOn (fun _ => (1, .disconnected))
          (signOn (fun _ => (1, .disconnected)) .connectedQuery .query).1 .query
        = signOn (fun _ => (1, .disconnected)) .connectedQuery .query) :=
  ⟨Or.inl rfl,
   c9_signon_idempotent_when_connected (fun _ => (1, .disconnected))
     .connectedQuery .query (Or.inl rfl)⟩

/-! ### Claim C10 -/

/-- C10: `IsTrue` (and the identical `stringToBool`) returns true exactly
when the lowercase form of its argument is one of "true", "on", "yes", "y",
"1"; it is total, case-insensitive, and false on the empty string and on
"0", "off", "no". -/
theorem c10_istrue_characterization :
    (∀ s : String,
      IsTrue s = true ↔
        (goToLower s = "true" ∨ goToLower s = "on" ∨ goToLower s = "yes"
          ∨ goToLower s = "y" ∨ goToLower s = "1")) ∧
    IsTrue "" = false ∧ IsTrue "0" = false ∧ IsTrue "off" = false ∧
    IsTrue "no" = false ∧ IsTrue "TRUE" = true ∧ IsTrue "On" = true ∧
    IsTrue "YES" = true ∧ IsTrue "y" = true ∧ IsTrue "1" = true := by
  refine ⟨fun s => ?_, by decide, by decide, by decide, by decide,
    by decide, by decide, by decide, by decide, by decide⟩
  simp [IsTrue, Bool.or_eq_true, beq_iff_eq, or_assoc]

/-! ### Claim C5 -/

/-- C5: the claim fails on the code.  Under the pre-Go-1.22 range-loop
semantics, `decodeAttributeSet`'s attribute pass stores `&attr.Value` of the
single shared loop variable, so for an element whose id-ref attribute is
followed by any other attribute the retained IdRef (like every other
retained pointer field) dereferences to the LAST attribute's value rather
than the id-ref string: `<instance_attributes id-ref="other-set" score="5"/>`
decodes with IdRef = "5" (first conjunct).  The decode also does not always
succeed: an attribute-less `nvpair` child with element content makes
`decodeTagImpl` call its nil element callback and panic (second conjunct).
Only when the id-ref attribute comes last (third conjunct: it is the only
attribute) is the reference retained untouched, as an empty set with no
values or rules taken from anywhere. -/
theorem c5_decodeAttributeSet_aliases_idref :
    decodeAttributeSet ⟨"instance_attributes", [⟨"id-ref", "other-set"⟩, ⟨"score", "5"⟩]⟩
        [.endEl "instance_attributes"]
      = some ({ id := none, idRef := some "5", score := some "5", rules := [], values := [] }, []) ∧
    decodeAttributeSet ⟨"instance_attributes", [⟨"id-ref", "other-set"⟩]⟩
        [.startEl ⟨"nvpair", []⟩, .startEl ⟨"x", []⟩, .endEl "x", .endEl "nvpair",
         .endEl "instance_attributes"]
      = none ∧
    decodeAttributeSet ⟨"instance_attributes", [⟨"id-ref", "other-set"⟩]⟩
        [.endEl "instance_attributes"]
      = some ({ id := none, idRef := some "other-set", score := none, rules := [], values := [] }, []) :=
  ⟨rfl, rfl, rfl⟩
